import Mathlib

/-!
# Verification of the saxophone-ts chunk-boundary XML tokenizer

Shallow embedding of `src/Saxophone.ts` (`_parseChunk`, `_handleTagOpening`,
`_wait`/`_unwait`, `__final`) and of the two pure helper parsers described by
the specification (`parseAttrs`, `parseEntities`, whose sources are not part
of the repository snapshot — only their test files are; those two are
modelled from the spec).

JavaScript strings are modelled as `List Char`.  Out-of-range indexing
(`input[i]` yielding `undefined`) is modelled with `Option Char`;
`String.prototype.indexOf` with a `fromIndex` is modelled by `indexOfFrom`;
`String.prototype.slice` by `sliceJS`/`sliceFrom`.  The `while` loop of
`_parseChunk` is modelled with a fuel parameter; the cursor strictly
increases at every iteration, so `input.length + 2` units of fuel always
suffice.
-/

/-- Characters matched by the JavaScript regular expression `\s`
(used by `input.slice(chunkPos).search(/\s/)`). -/
def jsWhitespace (c : Char) : Bool :=
  c = ' ' || c = '\t' || c = '\n' || c = '\r' ||
  c = Char.ofNat 11 || c = Char.ofNat 12 ||
  c = Char.ofNat 0xa0 || c = Char.ofNat 0x1680 ||
  (0x2000 ≤ c.toNat && c.toNat ≤ 0x200a) ||
  c = Char.ofNat 0x2028 || c = Char.ofNat 0x2029 ||
  c = Char.ofNat 0x202f || c = Char.ofNat 0x205f ||
  c = Char.ofNat 0x3000 || c = Char.ofNat 0xfeff

/-- `input[i]` on a JavaScript string: `some c` in range, `none` (undefined)
out of range. -/
def getC (s : List Char) (i : Nat) : Option Char :=
  s.get? i

/-- Smallest offset at which `pat` occurs as a contiguous sublist of `s`
(`String.prototype.indexOf`, with `-1` modelled as `none`). -/
def subFind (pat : List Char) : List Char → Option Nat
  | [] => if pat.isEmpty then some 0 else none
  | c :: rest =>
      if pat.isPrefixOf (c :: rest) then some 0
      else (subFind pat rest).map (· + 1)

/-- `s.indexOf(pat, i)` for a non-empty `pat`: smallest index `≥ i` at which
`pat` occurs in `s`. -/
def indexOfFrom (s pat : List Char) (i : Nat) : Option Nat :=
  (subFind pat (s.drop i)).map (· + i)

/-- `s.slice(a, b)` for `0 ≤ a, b` (the only case arising in the source). -/
def sliceJS (s : List Char) (a b : Nat) : List Char :=
  (s.take b).drop a

/-- `s.slice(a)` for `0 ≤ a`. -/
def sliceFrom (s : List Char) (a : Nat) : List Char :=
  s.drop a

/-- The literal `CDATA[` against which the lookahead after `<![` is
compared (by substring containment via String.prototype.indexOf). -/
def cdataLit : List Char := "CDATA[".data

/-- Node events emitted by the tokenizer (`TextNode`, `CDATANode`,
`CommentNode`, `ProcessingInstructionNode`, `TagOpenNode`, `TagCloseNode`
from `static/nodes.ts`). -/
inductive Node
  | text (contents : List Char)
  | cdata (contents : List Char)
  | comment (contents : List Char)
  | processingInstruction (contents : List Char)
  | tagOpen (name : List Char) (attrs : List Char) (isSelfClosing : Bool)
  | tagClose (name : List Char)
  deriving DecidableEq

/-- The token kinds passed to `_wait` (the `token` field of `_waiting`). -/
inductive WaitToken
  | text
  | cdata
  | comment
  | markupDeclaration
  | processingInstruction
  | tagOpen
  deriving DecidableEq

/-- How one call of the `_parseChunk` scanning loop ends: the cursor
reached the end of the buffered data (`done`), `_wait(token, data)` was
called and the loop broke (`waited`), or an `Error` was thrown
(`failed`). -/
inductive LoopExit
  | done
  | waited (w : WaitToken) (data : List Char)
  | failed (msg : List Char)
  deriving DecidableEq

/-- Result of the scanning loop: emitted events in order, the tag stack
after the loop (head = most recently opened tag), and how the loop
exited. -/
structure LoopResult where
  events : List Node
  stack : List (List Char)
  exit : LoopExit
  deriving DecidableEq

/-- Prepend one emitted event to a loop result. -/
def consEvent (n : Node) (r : LoopResult) : LoopResult :=
  ⟨n :: r.events, r.stack, r.exit⟩

/-- `input[tagClose - 1] === '/'` (self-closing detection). -/
def selfCloseAt (input : List Char) (tc : Nat) : Bool :=
  getC input (tc - 1) == some '/'

/-- `isSelfClosing ? tagClose - 1 : tagClose` (the effective tag body
end). -/
def realCloseAt (input : List Char) (tc : Nat) : Nat :=
  if selfCloseAt input tc then tc - 1 else tc

/-- Effect of `_handleTagOpening` on the tag stack: push the name unless
the tag is self-closing. -/
def pushTag (stack : List (List Char)) (name : List Char) (sc : Bool) :
    List (List Char) :=
  if sc then stack else name :: stack

/-- The scanning loop of `_parseChunk`, one fuel unit per iteration.
`pos` is `chunkPos`; the stack is stored most-recently-opened first.
Each branch mirrors the corresponding branch of the source; cursor
arithmetic (`chunkPos += 1` etc.) is inlined as offsets from `pos`. -/
def parseLoop : Nat → List Char → Nat → List (List Char) → LoopResult
  | 0, _, _, stack => ⟨[], stack, .done⟩
  | fuel+1, input, pos, stack =>
    if pos < input.length then
      if getC input pos = some '<' then
        if getC input (pos + 1) = some '!' then
          match getC input (pos + 2) with
          | none =>
            -- wait(markupDeclaration, input.slice(chunkPos - 2))
            ⟨[], stack, .waited .markupDeclaration (sliceFrom input pos)⟩
          | some c2 =>
            if c2 = '[' ∧ (subFind (sliceJS input (pos + 3) (pos + 9)) cdataLit).isSome then
              match indexOfFrom input "]]>".data (pos + 9) with
              | none =>
                -- wait(cdata, input.slice(chunkPos - 9))
                ⟨[], stack, .waited .cdata (sliceFrom input pos)⟩
              | some cd =>
                consEvent (.cdata (sliceJS input (pos + 9) cd))
                  (parseLoop fuel input (cd + 3) stack)
            else if c2 = '-' ∧ (getC input (pos + 3) = some '-' ∨ getC input (pos + 3) = none) then
              match indexOfFrom input "--".data (pos + 4) with
              | none =>
                -- wait(comment, input.slice(chunkPos - 4))
                ⟨[], stack, .waited .comment (sliceFrom input pos)⟩
              | some cc =>
                if getC input (cc + 2) = some '>' then
                  consEvent (.comment (sliceJS input (pos + 4) cc))
                    (parseLoop fuel input (cc + 3) stack)
                else ⟨[], stack, .failed "Unexpected -- inside comment".data⟩
            else ⟨[], stack, .failed ("Unrecognized sequence: <!".data ++ [c2])⟩
        else if getC input (pos + 1) = some '?' then
          match indexOfFrom input "?>".data (pos + 2) with
          | none =>
            -- wait(processingInstruction, input.slice(chunkPos - 2))
            ⟨[], stack, .waited .processingInstruction (sliceFrom input pos)⟩
          | some pc =>
            consEvent (.processingInstruction (sliceJS input (pos + 2) pc))
              (parseLoop fuel input (pc + 2) stack)
        else
          match indexOfFrom input ">".data (pos + 1) with
          | none =>
            -- wait(tagOpen, input.slice(chunkPos - 1))
            ⟨[], stack, .waited .tagOpen (sliceFrom input pos)⟩
          | some tc =>
            if getC input (pos + 1) = some '/' then
              match stack with
              | [] =>
                -- pop() of an empty stack is undefined; template literal
                -- interpolation renders it as the string "undefined"
                ⟨[], [], .failed "Unclosed tag: undefined".data⟩
              | top :: rest =>
                if top = sliceJS input (pos + 2) tc then
                  consEvent (.tagClose (sliceJS input (pos + 2) tc))
                    (parseLoop fuel input (tc + 1) rest)
                else ⟨[], [], .failed ("Unclosed tag: ".data ++ top)⟩
            else
              match List.findIdx? jsWhitespace (sliceFrom input (pos + 1)) with
              | none =>
                consEvent
                  (.tagOpen (sliceJS input (pos + 1) (realCloseAt input tc)) []
                    (selfCloseAt input tc))
                  (parseLoop fuel input (tc + 1)
                    (pushTag stack (sliceJS input (pos + 1) (realCloseAt input tc))
                      (selfCloseAt input tc)))
              | some w =>
                if tc - (pos + 1) ≤ w then
                  consEvent
                    (.tagOpen (sliceJS input (pos + 1) (realCloseAt input tc)) []
                      (selfCloseAt input tc))
                    (parseLoop fuel input (tc + 1)
                      (pushTag stack (sliceJS input (pos + 1) (realCloseAt input tc))
                        (selfCloseAt input tc)))
                else if w = 0 then
                  ⟨[], stack, .failed "Tag names may not start with whitespace".data⟩
                else
                  consEvent
                    (.tagOpen (sliceJS input (pos + 1) (pos + 1 + w))
                      (sliceJS input (pos + 1 + w) (realCloseAt input tc))
                      (selfCloseAt input tc))
                    (parseLoop fuel input (tc + 1)
                      (pushTag stack (sliceJS input (pos + 1) (pos + 1 + w))
                        (selfCloseAt input tc)))
      else
        match indexOfFrom input "<".data pos with
        | none => ⟨[], stack, .waited .text (sliceFrom input pos)⟩
        | some nt =>
          consEvent (.text (sliceJS input pos nt)) (parseLoop fuel input nt stack)
    else ⟨[], stack, .done⟩

/-- Parser state carried between `feed` calls: the `_waiting` slot and the
tag stack (`_tagStack`, stored most-recently-opened first; the JS array
order is the reverse). -/
structure SaxState where
  waiting : Option (WaitToken × List Char)
  tagStack : List (List Char)
  deriving DecidableEq

/-- `_unwait()`: pending data, or the empty string when not waiting. -/
def unwaitData (st : SaxState) : List Char :=
  match st.waiting with
  | none => []
  | some (_, d) => d

/-- Result of one `feed` (`_parseChunk` wrapped by `_write`): events plus a
new state, or events plus the message of the thrown error. -/
inductive FeedResult
  | ok (events : List Node) (st : SaxState)
  | failed (events : List Node) (msg : List Char)
  deriving DecidableEq

/-- `_parseChunk(data)` on a given state: prepend the pending data, reset
the waiting slot, and scan. -/
def parseChunkFn (st : SaxState) (data : List Char) : FeedResult :=
  let input := unwaitData st ++ data
  match parseLoop (input.length + 2) input 0 st.tagStack with
  | ⟨evs, stack, .done⟩ => .ok evs ⟨none, stack⟩
  | ⟨evs, stack, .waited w d⟩ => .ok evs ⟨some (w, d), stack⟩
  | ⟨evs, stack, .failed m⟩ => .failed evs m

/-- Array.prototype.join with a comma separator. -/
def joinComma : List (List Char) → List Char
  | [] => []
  | [x] => x
  | x :: y :: ys => x ++ ',' :: joinComma (y :: ys)

/-- `__final()` (`finish`): one last empty parse, then resolve the pending
token, then check that the tag stack is empty.  Returns the events emitted
during `finish` and the error message if any. -/
def finishFn (st : SaxState) : List Node × Option (List Char) :=
  match parseChunkFn st [] with
  | .failed evs m => (evs, some m)
  | .ok evs st' =>
    let stackErr : Option (List Char) :=
      if st'.tagStack = [] then none
      else some ("Unclosed tags: ".data ++ joinComma st'.tagStack.reverse)
    match st'.waiting with
    | some (.text, d) => (evs ++ [Node.text d], stackErr)
    | some (.cdata, _) => (evs, some "Unclosed CDATA section".data)
    | some (.comment, _) => (evs, some "Unclosed comment".data)
    | some (.processingInstruction, _) => (evs, some "Unclosed processing instruction".data)
    | some (.tagOpen, _) => (evs, some "Unclosed tag".data)
    | _ => (evs, stackErr)

/-- Whole-session outcome: the ordered events delivered to listeners and
the fatal error message, if any. -/
structure RunResult where
  events : List Node
  error : Option (List Char)
  deriving DecidableEq

/-- Feed the chunks in order (stopping at the first fatal error, which
terminates the session), then call `finish`. -/
def runFrom (st : SaxState) : List (List Char) → RunResult
  | [] =>
    match finishFn st with
    | (evs, err) => ⟨evs, err⟩
  | c :: cs =>
    match parseChunkFn st c with
    | .ok evs st' =>
      let r := runFrom st' cs
      ⟨evs ++ r.events, r.error⟩
    | .failed evs m => ⟨evs, some m⟩

/-- The initial parser state built by the constructor. -/
def initState : SaxState := ⟨none, []⟩

/-- Feed a list of chunks into a fresh parser and finish. -/
def runChunks (chunks : List (List Char)) : RunResult :=
  runFrom initState chunks


/-- Replay an event list against a tag stack: a non-self-closing `tagOpen`
pushes its name, a `tagClose` must find its own name on top of the stack
(otherwise `none`), every other event leaves the stack unchanged.
`stackAfter evs [] = some []` states exactly that every non-self-closing
`tagOpen` in `evs` is matched by one later `tagClose` of the same name in
properly nested (LIFO) order. -/
def stackAfter : List Node → List (List Char) → Option (List (List Char))
  | [], s => some s
  | Node.tagOpen n _ sc :: rest, s => stackAfter rest (if sc then s else n :: s)
  | Node.tagClose n :: rest, s =>
    match s with
    | [] => none
    | top :: s' => if top = n then stackAfter rest s' else none
  | _ :: rest, s => stackAfter rest s


/-- Hexadecimal digit test for numeric character references. -/
def isHexDigitCh (c : Char) : Bool :=
  c.isDigit || ('a' ≤ c && c ≤ 'f') || ('A' ≤ c && c ≤ 'F')

/-- Value of a hexadecimal digit. -/
def hexDigitVal (c : Char) : Nat :=
  if c.isDigit then c.toNat - '0'.toNat
  else if 'a' ≤ c && c ≤ 'f' then c.toNat - 'a'.toNat + 10
  else c.toNat - 'A'.toNat + 10

/-- Numeric value of a hexadecimal digit string. -/
def hexVal (s : List Char) : Nat :=
  s.foldl (fun acc c => acc * 16 + hexDigitVal c) 0

/-- Numeric value of a decimal digit string. -/
def decVal (s : List Char) : Nat :=
  s.foldl (fun acc c => acc * 10 + (c.toNat - '0'.toNat)) 0

/-- Modelled from the spec: interpretation of one entity-reference body
(the text strictly between `&` and `;`).  The five named references map to
their characters; `#` followed by decimal digits and `#x`/`#X` followed by
hexadecimal digits map to the corresponding code point; anything else is
unknown (`none`).  (The entity decoder source `entities.ts` is not part of
the repository snapshot; only its tests are.) -/
def decodeRef (body : List Char) : Option Char :=
  if body = "amp".data then some '&'
  else if body = "lt".data then some '<'
  else if body = "gt".data then some '>'
  else if body = "quot".data then some '"'
  else if body = "apos".data then some (Char.ofNat 39)
  else
    match body with
    | '#' :: rest =>
      match rest with
      | 'x' :: h => if h ≠ [] ∧ h.all isHexDigitCh then some (Char.ofNat (hexVal h)) else none
      | 'X' :: h => if h ≠ [] ∧ h.all isHexDigitCh then some (Char.ofNat (hexVal h)) else none
      | _ => if rest ≠ [] ∧ rest.all (·.isDigit) then some (Char.ofNat (decVal rest)) else none
    | _ => none

/-- Modelled from the spec: the entity-reference decoder
(`parseEntities`, `entities.ts`, not part of the repository snapshot —
only its tests are).  Single left-to-right pass, total: at an `&`, the text
up to the next `;` is interpreted as a reference and replaced when it is
one of the five named references or a valid numeric reference; otherwise
(unknown reference, non-numeric payload, or no terminating `;`) the input
passes through byte-for-byte unchanged.  Replacement output is never
re-scanned. -/
def parseEntitiesLoop : Nat → List Char → List Char
  | 0, s => s
  | _+1, [] => []
  | fuel+1, c :: rest =>
    if c = '&' then
      let body := rest.takeWhile (· ≠ ';')
      if body.length = rest.length then
        -- no terminating semicolon anywhere: pass the ampersand through
        c :: parseEntitiesLoop fuel rest
      else
        match decodeRef body with
        | some r => r :: parseEntitiesLoop fuel (rest.drop (body.length + 1))
        | none => c :: parseEntitiesLoop fuel rest
    else c :: parseEntitiesLoop fuel rest

/-- Entry point of the decoder; every pass consumes at least one input
character, so `s.length` units of fuel always suffice. -/
def parseEntities (s : List Char) : List Char :=
  parseEntitiesLoop s.length s


/-- An attribute map in the JavaScript-object sense: insertion-ordered
pairs where assigning to an existing key overwrites its value in place. -/
def attrsSet (m : List (List Char × List Char)) (k v : List Char) :
    List (List Char × List Char) :=
  match m with
  | [] => [(k, v)]
  | (k', v') :: rest => if k' = k then (k, v) :: rest else (k', v') :: attrsSet rest k v

instance {ε α : Type} [DecidableEq ε] [DecidableEq α] : DecidableEq (Except ε α) := fun x y =>
  match x, y with
  | .ok a, .ok b => if h : a = b then .isTrue (by simp [h]) else .isFalse (by simp [h])
  | .error a, .error b => if h : a = b then .isTrue (by simp [h]) else .isFalse (by simp [h])
  | .ok _, .error _ => .isFalse (by simp)
  | .error _, .ok _ => .isFalse (by simp)

/-- Modelled from the spec: scanning an attribute name up to the `=` sign.
Reaching the end of input without an `=` is the "Expected a value for the
attribute" error; whitespace strictly before the `=` is the "Attribute
names may not contain whitespace" error.  (The attribute parser source
`attrs.ts` is not part of the repository snapshot; only its tests are.) -/
def scanAttrName (acc : List Char) : List Char → Except (List Char) (List Char × List Char)
  | [] => .error "Expected a value for the attribute".data
  | c :: rest =>
    if c = '=' then .ok (acc.reverse, rest)
    else if jsWhitespace c then .error "Attribute names may not contain whitespace".data
    else scanAttrName (c :: acc) rest

/-- Modelled from the spec: scanning a quoted attribute value up to the
closing quote character `q`; the content (including embedded whitespace)
is captured verbatim.  No closing quote before the end of input is the
"Unclosed attribute value" error. -/
def scanAttrValue (q : Char) (acc : List Char) : List Char → Except (List Char) (List Char × List Char)
  | [] => .error "Unclosed attribute value".data
  | c :: rest => if c = q then .ok (acc.reverse, rest) else scanAttrValue q (c :: acc) rest

/-- Modelled from the spec: the attribute-blob scanning loop.  Skips
whitespace between pairs; each pair is a name, `=`, and a value quoted
with a double or a single quote; an `=` not directly quote-led is the
"Attribute values should be quoted" error.  Later duplicate names
overwrite earlier ones.  One fuel unit is spent per scanned pair or
skipped whitespace character, so `length + 1` always suffices. -/
def parseAttrsLoop : Nat → List Char → List (List Char × List Char) →
    Except (List Char) (List (List Char × List Char))
  | 0, _, m => .ok m
  | _+1, [], m => .ok m
  | fuel+1, c :: rest, m =>
    if jsWhitespace c then parseAttrsLoop fuel rest m
    else
      match scanAttrName [] (c :: rest) with
      | .error e => .error e
      | .ok (name, afterEq) =>
        match afterEq with
        | [] => .error "Attribute values should be quoted".data
        | q :: afterQ =>
          if q = '"' ∨ q = Char.ofNat 39 then
            match scanAttrValue q [] afterQ with
            | .error e => .error e
            | .ok (v, rest') => parseAttrsLoop fuel rest' (attrsSet m name v)
          else .error "Attribute values should be quoted".data

/-- Modelled from the spec: the attribute blob parser
(`parseAttrs`, `attrs.ts`, not part of the repository snapshot — only its
tests are). -/
def parseAttrs (s : List Char) : Except (List Char) (List (List Char × List Char)) :=
  parseAttrsLoop (s.length + 1) s []


theorem stackAfter_append (a b : List Node) (s : List (List Char)) :
    stackAfter (a ++ b) s = (stackAfter a s).bind (stackAfter b) := by
  induction a generalizing s with
  | nil => simp [stackAfter]
  | cons n rest ih =>
    cases n with
    | text c => simp [stackAfter, ih]
    | cdata c => simp [stackAfter, ih]
    | comment c => simp [stackAfter, ih]
    | processingInstruction c => simp [stackAfter, ih]
    | tagOpen nm at_ sc => simp [stackAfter, ih]
    | tagClose nm =>
      cases s with
      | nil => simp [stackAfter]
      | cons top s' =>
        by_cases h : top = nm <;> simp [stackAfter, h, ih]

theorem parseLoop_stackAfter : ∀ (fuel : Nat) (input : List Char) (pos : Nat)
    (stack : List (List Char)) (r : LoopResult),
    parseLoop fuel input pos stack = r → (∀ m, r.exit ≠ .failed m) →
    stackAfter r.events stack = some r.stack := by
  intro fuel
  induction fuel with
  | zero =>
    intro input pos stack r h hex
    simp only [parseLoop] at h
    subst h
    rfl
  | succ fuel ih =>
    intro input pos stack r h hex
    simp only [parseLoop] at h
    repeat' split at h
    all_goals subst h
    all_goals first
      | rfl
      | exact (hex _ rfl).elim
      | exact ih _ _ _ _ rfl hex
      | (simp only [consEvent, stackAfter, *]
         exact ih _ _ _ _ rfl hex)

theorem parseChunkFn_stackAfter (st : SaxState) (data : List Char)
    (evs : List Node) (st' : SaxState)
    (h : parseChunkFn st data = .ok evs st') :
    stackAfter evs st.tagStack = some st'.tagStack := by
  simp only [parseChunkFn] at h
  split at h
  · rename_i heq
    injection h with h1 h2
    subst h1; subst h2
    exact parseLoop_stackAfter _ _ _ _ _ heq (by simp [heq])
  · rename_i heq
    injection h with h1 h2
    subst h1; subst h2
    exact parseLoop_stackAfter _ _ _ _ _ heq (by simp [heq])
  · exact absurd h (by simp)

theorem finishFn_stackAfter (st : SaxState) (evs : List Node)
    (h : finishFn st = (evs, none)) :
    stackAfter evs st.tagStack = some [] := by
  simp only [finishFn] at h
  split at h
  · exact absurd h (by simp)
  · rename_i evs' st' heq
    have hbase := parseChunkFn_stackAfter st [] evs' st' heq
    split at h
    · rename_i d hw
      injection h with h1 h2
      subst h1
      have hstack : st'.tagStack = [] := by
        by_cases hs : st'.tagStack = []
        · exact hs
        · simp [hs] at h2
      rw [stackAfter_append, hbase]
      simp [stackAfter, hstack]
    · exact absurd h (by simp)
    · exact absurd h (by simp)
    · exact absurd h (by simp)
    · exact absurd h (by simp)
    · injection h with h1 h2
      subst h1
      have hstack : st'.tagStack = [] := by
        by_cases hs : st'.tagStack = []
        · exact hs
        · simp [hs] at h2
      rw [hbase, hstack]

theorem runFrom_stackAfter : ∀ (chunks : List (List Char)) (st : SaxState)
    (evs : List Node), runFrom st chunks = ⟨evs, none⟩ →
    stackAfter evs st.tagStack = some [] := by
  intro chunks
  induction chunks with
  | nil =>
    intro st evs h
    simp only [runFrom] at h
    injection h with h1 h2
    have hfin : finishFn st = (evs, none) := by
      rw [← h1, ← h2]
    exact finishFn_stackAfter st _ hfin
  | cons c cs ih =>
    intro st evs h
    simp only [runFrom] at h
    split at h
    · rename_i evs1 st' heq
      injection h with h1 h2
      subst h1
      rw [stackAfter_append, parseChunkFn_stackAfter st c evs1 st' heq]
      exact ih st' _ (by
        have : runFrom st' cs = ⟨(runFrom st' cs).events, (runFrom st' cs).error⟩ := rfl
        rw [this, h2])
    · exact absurd h (by simp)

theorem subFind_length_le (pat : List Char) :
    ∀ t : List Char, (subFind pat t).isSome → pat.length ≤ t.length := by
  intro t
  induction t with
  | nil =>
    simp only [subFind]
    split
    · rename_i hp
      intro
      simp only [List.isEmpty_iff] at hp
      simp [hp]
    · simp
  | cons c rest ih =>
    simp only [subFind]
    split
    · rename_i hp
      intro
      exact (List.isPrefixOf_iff_prefix.mp hp).length_le
    · intro h
      have h' : (subFind pat rest).isSome := by
        cases hsf : subFind pat rest with
        | none => rw [hsf] at h; simp at h
        | some v => simp
      exact le_trans (ih h') (by simp)

theorem subFind_singleton_of_not_mem {c : Char} :
    ∀ t : List Char, c ∉ t → subFind [c] t = none := by
  intro t
  induction t with
  | nil => simp [subFind]
  | cons d rest ih =>
    intro hmem
    have hne : c ≠ d := fun h => hmem (by simp [h])
    have hrest : c ∉ rest := fun h => hmem (by simp [h])
    have hpre : ¬([c].isPrefixOf (d :: rest) = true) := by
      simp [List.isPrefixOf, hne]
    simp only [subFind]
    rw [if_neg hpre, ih hrest]
    rfl

theorem getC_lt {input : List Char} {i : Nat} {c : Char}
    (h : getC input i = some c) : i < input.length := by
  obtain ⟨h', _⟩ := List.get?_eq_some.mp h
  exact h'

theorem subFind_cdataLit_of_length_six (pat : List Char) (hlen : pat.length = 6) :
    (subFind pat cdataLit).isSome ↔ pat = cdataLit := by
  constructor
  · intro h
    rw [show subFind pat cdataLit =
          if pat.isPrefixOf cdataLit then some 0
          else (subFind pat "DATA[".data).map (· + 1) from rfl] at h
    split at h
    · rename_i hp
      have hpre := List.isPrefixOf_iff_prefix.mp hp
      exact hpre.eq_of_length (by rw [hlen]; rfl)
    · exfalso
      have h' : (subFind pat "DATA[".data).isSome := by
        cases hsf : subFind pat "DATA[".data with
        | none => rw [hsf] at h; simp at h
        | some v => simp
      have hle := subFind_length_le pat "DATA[".data h'
      rw [hlen] at hle
      simp at hle
  · intro h
    subst h
    decide

theorem parseLoop_closing_empty_stack (fuel : Nat) (input : List Char) (pos tc : Nat)
    (h0 : getC input pos = some '<') (h1 : getC input (pos + 1) = some '/')
    (h2 : indexOfFrom input ">".data (pos + 1) = some tc) :
    parseLoop (fuel + 1) input pos [] =
      ⟨[], [], .failed "Unclosed tag: undefined".data⟩ := by
  have hpos := getC_lt h0
  have hne1 : ¬(getC input (pos + 1) = some '!') := by rw [h1]; decide
  have hne2 : ¬(getC input (pos + 1) = some '?') := by rw [h1]; decide
  simp [parseLoop, hpos, h0, h1, h2, hne1, hne2]

theorem parseLoop_closing_mismatch (fuel : Nat) (input : List Char) (pos tc : Nat)
    (top : List Char) (rest : List (List Char))
    (h0 : getC input pos = some '<') (h1 : getC input (pos + 1) = some '/')
    (h2 : indexOfFrom input ">".data (pos + 1) = some tc)
    (htop : top ≠ sliceJS input (pos + 2) tc) :
    parseLoop (fuel + 1) input pos (top :: rest) =
      ⟨[], [], .failed ("Unclosed tag: ".data ++ top)⟩ := by
  have hpos := getC_lt h0
  have hne1 : ¬(getC input (pos + 1) = some '!') := by rw [h1]; decide
  have hne2 : ¬(getC input (pos + 1) = some '?') := by rw [h1]; decide
  simp [parseLoop, hpos, h0, h1, h2, hne1, hne2, htop]

theorem parseLoop_comment_step (fuel : Nat) (input : List Char) (pos cc : Nat)
    (stack : List (List Char))
    (h0 : getC input pos = some '<') (h1 : getC input (pos + 1) = some '!')
    (h2 : getC input (pos + 2) = some '-') (h3 : getC input (pos + 3) = some '-')
    (hcc : indexOfFrom input "--".data (pos + 4) = some cc) :
    parseLoop (fuel + 1) input pos stack =
      if getC input (cc + 2) = some '>' then
        consEvent (.comment (sliceJS input (pos + 4) cc))
          (parseLoop fuel input (cc + 3) stack)
      else ⟨[], stack, .failed "Unexpected -- inside comment".data⟩ := by
  have hpos := getC_lt h0
  have hc1 : ¬('-' = '[' ∧ (subFind (sliceJS input (pos + 3) (pos + 9)) cdataLit).isSome = true) := by
    intro hand
    exact absurd hand.1 (by decide)
  have hc2 : '-' = '-' ∧ (getC input (pos + 3) = some '-' ∨ getC input (pos + 3) = none) :=
    ⟨rfl, Or.inl h3⟩
  simp [parseLoop, hpos, h0, h1, h2, hc1, hc2, hcc, h3]

theorem finishFn_unclosed_tags (s : List (List Char)) (hs : s ≠ []) :
    finishFn ⟨none, s⟩ =
      ([], some ("Unclosed tags: ".data ++ joinComma s.reverse)) := by
  have hpl : parseChunkFn ⟨none, s⟩ [] = .ok [] ⟨none, s⟩ := rfl
  simp [finishFn, hpl, hs]

theorem finishFn_unclosed_tags_text (s : List (List Char)) (hs : s ≠ [])
    (t : List Char) (ht : t ≠ []) (hlt : '<' ∉ t) :
    finishFn ⟨some (.text, t), s⟩ =
      ([Node.text t], some ("Unclosed tags: ".data ++ joinComma s.reverse)) := by
  obtain ⟨c, t', rfl⟩ := List.exists_cons_of_ne_nil ht
  have hcne : ¬(getC (c :: t') 0 = some '<') := by
    simp only [getC, List.get?]
    intro h
    injection h with h
    exact hlt (by simp [h])
  have hio : indexOfFrom (c :: t') "<".data 0 = none := by
    show (subFind ['<'] ((c :: t').drop 0)).map (· + 0) = none
    rw [List.drop_zero, subFind_singleton_of_not_mem _ hlt]
    rfl
  have hpl : parseLoop (t'.length + 1 + 2) (c :: t') 0 s =
      ⟨[], s, .waited .text (c :: t')⟩ := by
    simp [parseLoop, hcne, hio, sliceFrom]
  have hch : parseChunkFn ⟨some (.text, c :: t'), s⟩ [] =
      .ok [] ⟨some (.text, c :: t'), s⟩ := by
    simp [parseChunkFn, unwaitData, hpl]
  simp [finishFn, hch, hs]

theorem finishFn_markupDecl_pending (s : List (List Char)) :
    finishFn ⟨some (.markupDeclaration, "<!".data), s⟩ =
      ([], if s = [] then none
           else some ("Unclosed tags: ".data ++ joinComma s.reverse)) := by
  have hpl : parseChunkFn ⟨some (.markupDeclaration, ['<', '!']), s⟩ [] =
      .ok [] ⟨some (.markupDeclaration, ['<', '!']), s⟩ := rfl
  rcases eq_or_ne s [] with h | h
  · subst h
    simp [finishFn, hpl]
  · simp [finishFn, hpl, h]

/-- C1: the claim states that feeding any chunking of an XML text gives the
same events and outcome as feeding the whole text at once.  The code
violates this: the comment terminator check reads `input[commentClose + 2]`
past the end of the buffered data instead of deferring, so feeding
`"<!--x-->"` as the two chunks `"<!--x--"` and `">"` fails fatally with
"Unexpected -- inside comment" while feeding it whole emits `Comment{x}`
and succeeds.  This theorem evaluates the tokenizer on that failing input
and on the whole text. -/
theorem claim_C1_chunk_invariance_bug :
    runChunks ["<!--x--".data, ">".data] =
      ⟨[], some "Unexpected -- inside comment".data⟩ ∧
    runChunks ["<!--x--".data ++ ">".data] =
      ⟨[Node.comment "x".data], none⟩ := by
  constructor
  · decide
  · decide

/-- C2 counterexample: the claim states that a buffered lookahead after
`<![` that is not a prefix of `CDATA[` (such as `DATA[`) is never treated
as a possible CDATA opener and instead hits the fatal "Unrecognized
sequence" path.  In fact feeding `"<![DATA["` (whose lookahead is exactly
`DATA[`) defers as a pending CDATA section, and `finish()` then fails with
"Unclosed CDATA section", not with an "Unrecognized sequence" error. -/
theorem claim_C2_counterexample :
    (runChunks ["<![DATA[".data]).error = some "Unclosed CDATA section".data ∧
    (runChunks ["<![DATA[".data]).error ≠ some "Unrecognized sequence: <![".data := by
  constructor
  · decide
  · decide

/-- C2 amended: after `<![` the tokenizer tests whether the up-to-6
character lookahead is a SUBSTRING of the literal `CDATA[`
(indexOf containment on the literal), not a prefix.  A full 6-character
lookahead is a substring iff it equals `CDATA[`, so a full match commits
to CDATA; a shorter lookahead (buffered input ended early) defers whenever
it is any substring of `CDATA[` — including non-prefixes such as `DATA[`,
which is deferred as a pending CDATA section (fatal "Unclosed CDATA
section" at end of input) rather than hitting the "Unrecognized sequence"
path; a lookahead that is no substring falls through to the fatal
"Unrecognized sequence" path. -/
theorem claim_C2_cdata_containment :
    (∀ pat : List Char, pat.length = 6 →
      ((subFind pat cdataLit).isSome ↔ pat = cdataLit)) ∧
    runChunks ["<![CDATA[x]]>".data] = ⟨[Node.cdata "x".data], none⟩ ∧
    runChunks ["<![CD".data, "ATA[contents]]>".data] =
      ⟨[Node.cdata "contents".data], none⟩ ∧
    runChunks ["<![DATA[".data] = ⟨[], some "Unclosed CDATA section".data⟩ ∧
    runChunks ["<![DATA[x".data] = ⟨[], some "Unrecognized sequence: <![".data⟩ :=
  ⟨subFind_cdataLit_of_length_six, by decide, by decide, by decide, by decide⟩

theorem claim_C2_cdata_containment_witness :
    (subFind "CDATA[".data cdataLit).isSome :=
  (claim_C2_cdata_containment.1 "CDATA[".data (by decide)).mpr rfl

/-- C3: whenever a complete closing tag is scanned and the popped stack
top is not byte-wise equal to the name of the tag, the loop stops with the
fatal message "Unclosed tag: " followed by the popped (expected) name,
the whole tag stack is cleared, and no `TagClose` event is emitted; on
`"<closed><unclosed></closed>"` the two `TagOpen` events emitted before
the error remain delivered and the session fails with
"Unclosed tag: unclosed". -/
theorem claim_C3_closing_mismatch :
    (∀ (fuel : Nat) (input : List Char) (pos tc : Nat) (top : List Char)
       (rest : List (List Char)),
      getC input pos = some '<' → getC input (pos + 1) = some '/' →
      indexOfFrom input ">".data (pos + 1) = some tc →
      top ≠ sliceJS input (pos + 2) tc →
      parseLoop (fuel + 1) input pos (top :: rest) =
        ⟨[], [], .failed ("Unclosed tag: ".data ++ top)⟩) ∧
    runChunks ["<closed><unclosed></closed>".data] =
      ⟨[Node.tagOpen "closed".data [] false, Node.tagOpen "unclosed".data [] false],
        some "Unclosed tag: unclosed".data⟩ :=
  ⟨parseLoop_closing_mismatch, by decide⟩

theorem claim_C3_closing_mismatch_witness :
    parseLoop 1 "</b>".data 0 ["a".data] =
      ⟨[], [], .failed ("Unclosed tag: ".data ++ "a".data)⟩ :=
  claim_C3_closing_mismatch.1 0 "</b>".data 0 3 "a".data []
    (by decide) (by decide) (by decide) (by decide)

/-- C10: a complete closing tag scanned while the tag stack is empty pops
`undefined`, which never equals the tag name, so the session fails with
the literal message "Unclosed tag: undefined" and no `TagClose` event is
emitted; `"</a>"` on a fresh parser shows exactly this. -/
theorem claim_C10_close_on_empty_stack :
    (∀ (fuel : Nat) (input : List Char) (pos tc : Nat),
      getC input pos = some '<' → getC input (pos + 1) = some '/' →
      indexOfFrom input ">".data (pos + 1) = some tc →
      parseLoop (fuel + 1) input pos [] =
        ⟨[], [], .failed "Unclosed tag: undefined".data⟩) ∧
    runChunks ["</a>".data] = ⟨[], some "Unclosed tag: undefined".data⟩ :=
  ⟨parseLoop_closing_empty_stack, by decide⟩

theorem claim_C10_close_on_empty_stack_witness :
    parseLoop 1 "</a>".data 0 [] =
      ⟨[], [], .failed "Unclosed tag: undefined".data⟩ :=
  claim_C10_close_on_empty_stack.1 0 "</a>".data 0 3
    (by decide) (by decide) (by decide)

/-- C4 counterexample: the claim states that the "Unclosed tags: " message
joins the stack entries in pop order (most recently opened first).  The
code joins the underlying array with Array.prototype.join, whose order
is first-opened first: after `"<a><b>"` the message is
"Unclosed tags: a,b", not the claimed "Unclosed tags: b,a". -/
theorem claim_C4_counterexample :
    (runChunks ["<a><b>".data]).error = some "Unclosed tags: a,b".data ∧
    (runChunks ["<a><b>".data]).error ≠ some "Unclosed tags: b,a".data := by
  constructor
  · decide
  · decide

/-- C4 amended: when `finish()` runs while the tag stack is non-empty
(also after resolving a pending text node, which is still emitted), the
session fails with "Unclosed tags: " followed by the stack entries joined
by commas in the order the tags were opened (first opened first, i.e. the
JS array order; `tagStack` is stored here most-recently-opened first, so
the joined list is its reverse). -/
theorem claim_C4_unclosed_tags_join_order :
    (∀ s : List (List Char), s ≠ [] →
      finishFn ⟨none, s⟩ =
        ([], some ("Unclosed tags: ".data ++ joinComma s.reverse))) ∧
    (∀ s : List (List Char), s ≠ [] → ∀ t : List Char, t ≠ [] → '<' ∉ t →
      finishFn ⟨some (.text, t), s⟩ =
        ([Node.text t], some ("Unclosed tags: ".data ++ joinComma s.reverse))) ∧
    runChunks ["<a><b>".data] =
      ⟨[Node.tagOpen "a".data [] false, Node.tagOpen "b".data [] false],
        some "Unclosed tags: a,b".data⟩ :=
  ⟨finishFn_unclosed_tags, finishFn_unclosed_tags_text, by decide⟩

theorem claim_C4_unclosed_tags_join_order_witness :
    finishFn ⟨none, ["b".data, "a".data]⟩ = ([], some "Unclosed tags: a,b".data) ∧
    finishFn ⟨some (.text, "x".data), ["a".data]⟩ =
      ([Node.text "x".data], some "Unclosed tags: a".data) :=
  ⟨(claim_C4_unclosed_tags_join_order.1 ["b".data, "a".data] (by decide)).trans (by decide),
   (claim_C4_unclosed_tags_join_order.2.1 ["a".data] (by decide) "x".data
      (by decide) (by decide)).trans (by decide)⟩

/-- C5: for every session that finishes without a fatal error, replaying
the emitted events against an empty tag stack succeeds and ends with an
empty stack (`stackAfter … = some []`): every non-self-closing `TagOpen`
is matched by exactly one later `TagClose` with the same name in properly
nested LIFO order (self-closing `TagOpen`s are never pushed, as in
`_handleTagOpening`), and the tag stack itself is empty at the end. -/
theorem claim_C5_stack_invariant :
    ∀ chunks : List (List Char), (runChunks chunks).error = none →
      stackAfter (runChunks chunks).events [] = some [] := by
  intro chunks h
  exact runFrom_stackAfter chunks initState (runChunks chunks).events
    (by rw [← h]; rfl)

theorem claim_C5_stack_invariant_witness :
    stackAfter (runChunks ["<a><b/>x</a>".data]).events [] = some [] :=
  claim_C5_stack_invariant ["<a><b/>x</a>".data] (by decide)

/-- C6: inside a committed comment, once the terminating `--` is found in
the buffered data, the character right after it must be `>`: otherwise
the loop fails with "Unexpected -- inside comment"; when it is `>`, a
`Comment` event carrying exactly the text between `<!--` and `--` is
emitted and scanning resumes after `-->`.  Concretely `"<!-- hi -->"`
emits `Comment{" hi "}` and `"<!-- a -- b ->"` fails fatally with
"Unexpected -- inside comment". -/
theorem claim_C6_comment_terminator :
    (∀ (fuel : Nat) (input : List Char) (pos cc : Nat) (stack : List (List Char)),
      getC input pos = some '<' → getC input (pos + 1) = some '!' →
      getC input (pos + 2) = some '-' → getC input (pos + 3) = some '-' →
      indexOfFrom input "--".data (pos + 4) = some cc →
      parseLoop (fuel + 1) input pos stack =
        if getC input (cc + 2) = some '>' then
          consEvent (.comment (sliceJS input (pos + 4) cc))
            (parseLoop fuel input (cc + 3) stack)
        else ⟨[], stack, .failed "Unexpected -- inside comment".data⟩) ∧
    runChunks ["<!-- hi -->".data] = ⟨[Node.comment " hi ".data], none⟩ ∧
    runChunks ["<!-- a -- b ->".data] =
      ⟨[], some "Unexpected -- inside comment".data⟩ :=
  ⟨parseLoop_comment_step, by decide, by decide⟩

theorem claim_C6_comment_terminator_witness :
    parseLoop 2 "<!-- a -- b ->".data 0 [] =
      ⟨[], [], .failed "Unexpected -- inside comment".data⟩ := by
  rw [claim_C6_comment_terminator.1 1 "<!-- a -- b ->".data 0 7 []
    (by decide) (by decide) (by decide) (by decide) (by decide)]
  decide

/-- C7: the entity decoder (modelled from the spec; its source is not in
the repository snapshot) is a total function; on the inputs of the claim it
decodes hexadecimal and decimal numeric references to the corresponding
character, leaves the unknown reference `&unknown;` and the unterminated
reference `&amp` byte-for-byte unchanged, and replaces the five named
references. -/
theorem claim_C7_entities :
    parseEntities "&#xA7;".data = "§".data ∧
    parseEntities "&#167;".data = "§".data ∧
    parseEntities "&unknown;".data = "&unknown;".data ∧
    parseEntities "&amp".data = "&amp".data ∧
    parseEntities "&amp;&lt;&gt;&quot;&apos;".data =
      ['&', '<', '>', '"', Char.ofNat 39] := by
  refine ⟨by decide, by decide, by decide, by decide, by decide⟩

/-- C8: the attribute blob parser (modelled from the spec; its source is
not in the repository snapshot) maps the well-formed blob
of three name-value pairs to the attribute map
first↦one, second↦two, third↦"three " (trailing space inside the quoted
value preserved verbatim), and a repeated name keeps the last
value of the last occurrence. -/
theorem claim_C8_attributes :
    parseAttrs " first=\"one\" second=\"two\"  third=\"three \" ".data =
      .ok [("first".data, "one".data), ("second".data, "two".data),
           ("third".data, "three ".data)] ∧
    parseAttrs " a=\"1\" a=\"2\"".data = .ok [("a".data, "2".data)] := by
  constructor
  · decide
  · decide

/-- C9: input ending exactly after `<!` leaves a pending
`markupDeclaration` token, which `finish()` silently accepts — it emits no
error for it and proceeds to the tag-stack check (success on an empty
stack, "Unclosed tags: …" otherwise) — unlike pending CDATA, comment,
processing-instruction and tag tokens, each of which is fatal at
`finish()`. -/
theorem claim_C9_markup_declaration_accepted :
    (∀ s : List (List Char),
      finishFn ⟨some (.markupDeclaration, "<!".data), s⟩ =
        ([], if s = [] then none
             else some ("Unclosed tags: ".data ++ joinComma s.reverse))) ∧
    runChunks ["<!".data] = ⟨[], none⟩ ∧
    runChunks ["<a><!".data] =
      ⟨[Node.tagOpen "a".data [] false], some "Unclosed tags: a".data⟩ ∧
    runChunks ["<![CDATA[x".data] = ⟨[], some "Unclosed CDATA section".data⟩ ∧
    runChunks ["<!--x".data] = ⟨[], some "Unclosed comment".data⟩ ∧
    runChunks ["<?x".data] = ⟨[], some "Unclosed processing instruction".data⟩ ∧
    runChunks ["<t".data] = ⟨[], some "Unclosed tag".data⟩ :=
  ⟨finishFn_markupDecl_pending, by decide, by decide, by decide, by decide,
    by decide, by decide⟩

theorem claim_C9_markup_declaration_accepted_witness :
    finishFn ⟨some (.markupDeclaration, "<!".data), []⟩ = ([], none) :=
  (claim_C9_markup_declaration_accepted.1 []).trans (by decide)
